import Mathlib

/-!
Verification model of the Distributed-Chess-RabbitMQ repository.

The repository implements a propose/validate/confirm protocol over a RabbitMQ
fanout exchange: producer agents publish `move_proposed` events, the single
Game Authority (consumers/validation_service.py) validates them against the
official board and broadcasts `move_validated` and `game_ended` events, and
passive observers (spectator, analysis, storage services) replay the broadcast
stream into local board projections.

The chess rules themselves live in the external python-chess library, which
the specification designates as an opaque Rules Engine capability outside the
core.  We therefore model the Rules Engine as an abstract structure
(`RulesEngine`), translate every message handler of the repository as a pure
step function over it, and instantiate it with small concrete engines
(`kingEngine`, `stuckEngine`) for closed witnesses and counterexamples.
-/

namespace ChessRMQ

/-- The two sides of the game; python-chess encodes them as booleans
(chess.WHITE / chess.BLACK). -/
inductive Side
  | white
  | black
  deriving DecidableEq, Repr

/-- A move as represented by python-chess `chess.Move`: a from-square and a
to-square (0..63), an optional promotion piece type and an optional drop piece
type. -/
structure UciMove where
  fromSq : Nat
  toSq : Nat
  promotion : Option Nat
  drop : Option Nat
  deriving DecidableEq, Repr

/-- Index of a square name in python-chess SQUARE_NAMES ("a1", "b1", ..., "h8"),
given its file character and rank character; none when the two characters do
not form a square name (list.index raises ValueError). -/
def squareIndex (f r : Char) : Option Nat :=
  if 'a' ≤ f ∧ f ≤ 'h' ∧ '1' ≤ r ∧ r ≤ '8' then
    some ((r.toNat - '1'.toNat) * 8 + (f.toNat - 'a'.toNat))
  else none

/-- Index of a piece symbol in python-chess PIECE_SYMBOLS
[None, "p", "n", "b", "r", "q", "k"]; none when absent (ValueError). -/
def pieceIndex : Char → Option Nat
  | 'p' => some 1
  | 'n' => some 2
  | 'b' => some 3
  | 'r' => some 4
  | 'q' => some 5
  | 'k' => some 6
  | _ => none

/-- The string case of python-chess `chess.Move.from_uci`: "0000" is the null
move; a four character token with "@" in second position is a drop; a four or
five character token is a regular move (with promotion piece when length is
five), rejected when the two squares coincide; every other string raises
InvalidMoveError, a subclass of ValueError, modelled as none. -/
def parseUci (s : String) : Option UciMove :=
  if s = "0000" then some ⟨0, 0, none, none⟩ else
  match s.toList with
  | [p, '@', f, r] => do
      let d ← pieceIndex p.toLower
      let sq ← squareIndex f r
      some ⟨sq, sq, none, some d⟩
  | [a, b, c, d] => do
      let fs ← squareIndex a b
      let ts ← squareIndex c d
      if fs = ts then none else some ⟨fs, ts, none, none⟩
  | [a, b, c, d, p] => do
      let fs ← squareIndex a b
      let ts ← squareIndex c d
      let pr ← pieceIndex p
      if fs = ts then none else some ⟨fs, ts, some pr, none⟩
  | _ => none

/-- Python exception classes that can escape or be caught in the message
handlers. -/
inductive PyExc
  | valueError
  | typeError
  | keyError
  | attributeError
  deriving DecidableEq, Repr

/-- A JSON value as produced by json.loads for a payload field.  A JSON object
is modelled by its number of keys, which is the only aspect of it the handlers
can observe before an exception is raised (its keys are strings, so integer
subscripts raise KeyError). -/
inductive JValue
  | jnull
  | jbool (b : Bool)
  | jnum (n : Int)
  | jstr (s : String)
  | jarr (a : List JValue)
  | jobj (numKeys : Nat)

/-- Behaviour of `chess.Move.from_uci` on a JSON list value: a four element
list whose second element is the string "@" reaches `uci[0].lower()`, raising
AttributeError unless the first element is a string (in which case the square
lookup on a list slice raises ValueError); every other list raises ValueError
in a square lookup or the length check (InvalidMoveError is a ValueError
subclass). -/
def fromUciList (a : List JValue) : Except PyExc UciMove :=
  match a with
  | [x, .jstr "@", _, _] =>
      match x with
      | .jstr _ => .error .valueError
      | _ => .error .attributeError
  | _ => .error .valueError

/-- Behaviour of `chess.Move.from_uci` applied to an arbitrary JSON value, as
the Authority does with `payload.get("uci")`:
* a string parses or raises InvalidMoveError (a ValueError);
* None, booleans and numbers have no len(), raising TypeError;
* lists are handled by `fromUciList`;
* a dict with 4 keys raises KeyError at `uci[1]` (its keys are strings), one
  with 5 keys raises TypeError at the slice `uci[0:2]`, and any other dict
  fails the length check with InvalidMoveError (a ValueError). -/
def fromUciDyn : JValue → Except PyExc UciMove
  | .jstr s =>
      match parseUci s with
      | some m => .ok m
      | none => .error .valueError
  | .jnull => .error .typeError
  | .jbool _ => .error .typeError
  | .jnum _ => .error .typeError
  | .jarr a => fromUciList a
  | .jobj n =>
      if n = 4 then .error .keyError
      else if n = 5 then .error .typeError
      else .error .valueError

/-- Wire event envelope as the handlers read it: the event_type string and the
payload fields the services access ("uci" and "result"); a missing field is
none (payload.get returns None, subscription raises KeyError). -/
structure Msg where
  eventType : String
  uci : Option JValue
  result : Option JValue

/-- The move_proposed message a producer publishes: payload {"uci": token}. -/
def proposeMsg (tok : String) : Msg :=
  ⟨"move_proposed", some (.jstr tok), none⟩

/-- The game_started control message (empty payload). -/
def gameStartedMsg : Msg :=
  ⟨"game_started", none, none⟩

/-- Modelled from the spec: the Rules Engine capability (python-chess), which
the specification excludes from the core and treats as opaque (spec sections 1
and 2).  It provides the initial configuration (chess.Board() / reset), move
legality for the side to move (membership in board.legal_moves), move
application (board.push), terminal detection (board.is_game_over), the outcome
string (board.result, one of "1-0", "0-1", "1/2-1/2" whenever the game is
over) and the side to move (board.turn). -/
structure RulesEngine (Pos : Type) where
  init : Pos
  legal : Pos → UciMove → Bool
  push : Pos → UciMove → Pos
  isGameOver : Pos → Bool
  result : Pos → String
  turn : Pos → Side
  result_ok : ∀ p, isGameOver p = true →
      result p = "1-0" ∨ result p = "0-1" ∨ result p = "1/2-1/2"

/-- on_message of consumers/validation_service.py (the Game Authority): on a
move_proposed event it parses the uci payload value (catching only ValueError),
checks the move against board.legal_moves, and if legal pushes it onto the
official board, publishes move_validated with the same uci value, and, when
board.is_game_over(), publishes game_ended with board.result(); every other
event type falls through the dispatch with no state change and no output. -/
def authorityStep {Pos : Type} (E : RulesEngine Pos) (board : Pos) (msg : Msg) :
    Except PyExc (Pos × List Msg) :=
  if msg.eventType = "move_proposed" then
    match fromUciDyn (msg.uci.getD .jnull) with
    | .error .valueError => .ok (board, [])
    | .error e => .error e
    | .ok m =>
      if E.legal board m then
        let board2 := E.push board m
        if E.isGameOver board2 then
          .ok (board2, [⟨"move_validated", msg.uci, none⟩,
                        ⟨"game_ended", none, some (.jstr (E.result board2))⟩])
        else
          .ok (board2, [⟨"move_validated", msg.uci, none⟩])
      else .ok (board, [])
  else .ok (board, [])

/-- The Authority processing a sequence of incoming events one at a time (the
single sequential pika consumer loop), collecting everything it publishes; an
uncaught exception aborts the run. -/
def authorityRun {Pos : Type} (E : RulesEngine Pos) (board : Pos) :
    List Msg → Except PyExc (Pos × List Msg)
  | [] => .ok (board, [])
  | msg :: rest =>
    match authorityStep E board msg with
    | .error e => .error e
    | .ok (b2, out1) =>
      match authorityRun E b2 rest with
      | .error e => .error e
      | .ok (b3, out2) => .ok (b3, out1 ++ out2)

/-- Whether a published batch contains a move_validated event. -/
def emitsValidated (out : List Msg) : Bool :=
  out.any fun m => m.eventType == "move_validated"

/-- Modelled from the spec: replaying a game from its accepted proposals
alone, the replay scenario of the determinism property (spec section 8).
Each move_validated event carries the accepted token; it is parsed and
applied in order, recording the game_ended event the Authority publishes
whenever the resulting Position is terminal.  (A validated event whose token
does not parse never arises in an Authority run; the replay stops there.) -/
def replayValidated {Pos : Type} (E : RulesEngine Pos) :
    Pos → List Msg → Pos × List Msg
  | b, [] => (b, [])
  | b, v :: rest =>
    match fromUciDyn (v.uci.getD .jnull) with
    | .error _ => (b, [])
    | .ok m =>
      let r := replayValidated E (E.push b m) rest
      (r.1, (if E.isGameOver (E.push b m)
             then [⟨"game_ended", none, some (.jstr (E.result (E.push b m)))⟩]
             else []) ++ r.2)

/-- Processing a list of delivered messages with a message handler, one at a
time, propagating any uncaught exception. -/
def processAll {σ : Type} (step : σ → Msg → Except PyExc σ) :
    σ → List Msg → Except PyExc σ
  | s, [] => .ok s
  | s, msg :: rest =>
    match step s msg with
    | .ok s2 => processAll step s2 rest
    | .error e => .error e

/-- Board-state part of on_message in consumers/spectator_service.py (the GUI
drawing is omitted): game_started resets the local board, move_validated
subscripts payload["uci"] (KeyError when absent) and pushes the parsed move
with no try/except, and every other event type leaves the board unchanged. -/
def spectatorStep {Pos : Type} (E : RulesEngine Pos) (board : Pos) (msg : Msg) :
    Except PyExc Pos :=
  if msg.eventType = "game_started" then .ok E.init
  else if msg.eventType = "move_validated" then
    match msg.uci with
    | none => .error .keyError
    | some u => (fromUciDyn u).map (E.push board)
  else .ok board

/-- Board-state part of on_message in consumers/analysis_service.py (the
Stockfish analysis and the published analysis event do not touch the board):
game_started resets, move_validated pushes the parsed move. -/
def analysisStep {Pos : Type} (E : RulesEngine Pos) (board : Pos) (msg : Msg) :
    Except PyExc Pos :=
  if msg.eventType = "game_started" then .ok E.init
  else if msg.eventType = "move_validated" then
    match msg.uci with
    | none => .error .keyError
    | some u => (fromUciDyn u).map (E.push board)
  else .ok board

/-- Board-state part of on_message in consumers/storage_service.py: it resets
on game_started but advances its board only on "move_played" events, an event
type that no service of the repository ever publishes (the Authority publishes
"move_validated"). -/
def storageStep {Pos : Type} (E : RulesEngine Pos) (board : Pos) (msg : Msg) :
    Except PyExc Pos :=
  if msg.eventType = "game_started" then .ok E.init
  else if msg.eventType = "move_played" then
    match msg.uci with
    | none => .error .keyError
    | some u => (fromUciDyn u).map (E.push board)
  else .ok board

/-- State of producer/producer.py: the local board and the two protocol flags
game_over and waiting_validation. -/
structure EngineProdState (Pos : Type) where
  board : Pos
  gameOver : Bool
  waitingValidation : Bool

/-- on_message of producer/producer.py: move_validated pushes the move and
clears waiting_validation, game_ended sets game_over; no other event type is
handled (in particular not game_started). -/
def producerMsg {Pos : Type} (E : RulesEngine Pos) (st : EngineProdState Pos)
    (msg : Msg) : Except PyExc (EngineProdState Pos) :=
  if msg.eventType = "move_validated" then
    match msg.uci with
    | none => .error .keyError
    | some u =>
      match fromUciDyn u with
      | .ok m => .ok ⟨E.push st.board m, st.gameOver, false⟩
      | .error e => .error e
  else if msg.eventType = "game_ended" then
    .ok ⟨st.board, true, st.waitingValidation⟩
  else .ok st

/-- One iteration of the main while loop of producer/producer.py: if the game
is over the loop has exited; while waiting_validation it only processes
delivered bus messages; otherwise it queries Stockfish for a move, modelled
from the spec as an opaque MoveSource oracle yielding a move token (none when
engine.play yields no move, which breaks the loop), publishes move_proposed
and sets waiting_validation. -/
def producerLoopStep {Pos : Type} (E : RulesEngine Pos) (st : EngineProdState Pos)
    (delivered : List Msg) (oracle : Option String) :
    Except PyExc (EngineProdState Pos × List Msg) :=
  if st.gameOver then .ok (st, [])
  else if st.waitingValidation then
    match processAll (producerMsg E) st delivered with
    | .ok st2 => .ok (st2, [])
    | .error e => .error e
  else
    match oracle with
    | none => .ok (st, [])
    | some tok => .ok (⟨st.board, st.gameOver, true⟩, [proposeMsg tok])

/-- State of producer/producer_ai.py: local board, waiting_validation and
game_over flags. -/
structure AiState (Pos : Type) where
  board : Pos
  waitingValidation : Bool
  gameOver : Bool

/-- on_message of producer/producer_ai.py: game_started resets the board and
both flags, move_validated pushes the move and clears waiting_validation,
game_ended sets game_over; other event types are ignored. -/
def producerAiMsg {Pos : Type} (E : RulesEngine Pos) (st : AiState Pos)
    (msg : Msg) : Except PyExc (AiState Pos) :=
  if msg.eventType = "game_started" then .ok ⟨E.init, false, false⟩
  else if msg.eventType = "move_validated" then
    match msg.uci with
    | none => .error .keyError
    | some u =>
      match fromUciDyn u with
      | .ok m => .ok ⟨E.push st.board m, false, st.gameOver⟩
      | .error e => .error e
  else if msg.eventType = "game_ended" then
    .ok ⟨st.board, st.waitingValidation, true⟩
  else .ok st

/-- One iteration of the main while loop of producer/producer_ai.py: exit when
game_over; process whatever bus messages have been delivered; then skip the
turn while waiting_validation or while it is not the AI side (BLACK) to move
on the local board; otherwise publish the token obtained from the MoveSource
oracle (modelled from the spec; engine.play for this producer is used without
a None check) and set waiting_validation. -/
def producerAiLoopStep {Pos : Type} (E : RulesEngine Pos) (st : AiState Pos)
    (delivered : List Msg) (oracle : String) :
    Except PyExc (AiState Pos × List Msg) :=
  if st.gameOver then .ok (st, [])
  else
    match processAll (producerAiMsg E) st delivered with
    | .error e => .error e
    | .ok st2 =>
      if st2.waitingValidation then .ok (st2, [])
      else if E.turn st2.board = Side.black then
        .ok (⟨st2.board, true, st2.gameOver⟩, [proposeMsg oracle])
      else .ok (st2, [])

/-- State of producer/producer_human.py: only the local board; exit(0) on
game_ended is modelled by the exited flag (there is no waiting flag in this
producer). -/
structure HumanState (Pos : Type) where
  board : Pos
  exited : Bool

/-- on_message of producer/producer_human.py: game_started resets the board,
move_validated pushes the move, game_ended calls exit(0), modelled by the
exited flag; once exited the process is gone, so nothing further changes. -/
def producerHumanMsg {Pos : Type} (E : RulesEngine Pos) (st : HumanState Pos)
    (msg : Msg) : Except PyExc (HumanState Pos) :=
  if st.exited then .ok st
  else if msg.eventType = "game_started" then .ok ⟨E.init, st.exited⟩
  else if msg.eventType = "move_validated" then
    match msg.uci with
    | none => .error .keyError
    | some u =>
      match fromUciDyn u with
      | .ok m => .ok ⟨E.push st.board m, st.exited⟩
      | .error e => .error e
  else if msg.eventType = "game_ended" then .ok ⟨st.board, true⟩
  else .ok st

/-- One iteration of the main while loop of producer/producer_human.py:
process whatever bus messages have been delivered; then, whenever the local
board says it is WHITE (the human side) to move, read a token from the user
(the input prompt, modelled as an oracle string), parse it catching
ValueError, check it against the local board.legal_moves, and publish
move_proposed when both succeed.  There is no waiting flag: nothing prevents
the next iteration from prompting and publishing again for the same turn. -/
def producerHumanLoopStep {Pos : Type} (E : RulesEngine Pos) (st : HumanState Pos)
    (delivered : List Msg) (input : String) :
    Except PyExc (HumanState Pos × List Msg) :=
  if st.exited then .ok (st, [])
  else
    match processAll (producerHumanMsg E) st delivered with
    | .error e => .error e
    | .ok st2 =>
      if st2.exited then .ok (st2, [])
      else if E.turn st2.board = Side.white then
        match parseUci input with
        | none => .ok (st2, [])
        | some m =>
          if E.legal st2.board m then .ok (st2, [proposeMsg input])
          else .ok (st2, [])
      else .ok (st2, [])

/-- A run of consecutive iterations of the human producer loop, each iteration
given the messages delivered since the previous one and the token typed by the
user, collecting every published message. -/
def humanLoopRun {Pos : Type} (E : RulesEngine Pos) :
    HumanState Pos → List (List Msg × String) →
    Except PyExc (HumanState Pos × List Msg)
  | st, [] => .ok (st, [])
  | st, (d, inp) :: rest =>
    match producerHumanLoopStep E st d inp with
    | .error e => .error e
    | .ok (st2, out1) =>
      match humanLoopRun E st2 rest with
      | .error e => .error e
      | .ok (st3, out2) => .ok (st3, out1 ++ out2)

/-- A run of consecutive iterations of the AI producer loop, each iteration
given the delivered messages and the MoveSource token, collecting every
published message. -/
def aiLoopRun {Pos : Type} (E : RulesEngine Pos) :
    AiState Pos → List (List Msg × String) →
    Except PyExc (AiState Pos × List Msg)
  | st, [] => .ok (st, [])
  | st, (d, tok) :: rest =>
    match producerAiLoopStep E st d tok with
    | .error e => .error e
    | .ok (st2, out1) =>
      match aiLoopRun E st2 rest with
      | .error e => .error e
      | .ok (st3, out2) => .ok (st3, out1 ++ out2)

/-- A bare-kings board: the squares (0..63) of the white and black kings and
the side to move. -/
structure KPos where
  wk : Nat
  bk : Nat
  turn : Side
  deriving DecidableEq, Repr

/-- Chebyshev adjacency of two squares (a king step). -/
def kingsAdjacent (a b : Nat) : Bool :=
  (Int.ofNat (a % 8) - Int.ofNat (b % 8)).natAbs ≤ 1 ∧
  (Int.ofNat (a / 8) - Int.ofNat (b / 8)).natAbs ≤ 1 ∧ a ≠ b

/-- Legality of a move on a bare-kings board, as python-chess computes it
there: the side to move steps its own king one square to a square on the
board that is neither the enemy king nor adjacent to it, with no promotion
and no drop. -/
def kingLegal (p : KPos) (m : UciMove) : Bool :=
  let own := match p.turn with | .white => p.wk | .black => p.bk
  let other := match p.turn with | .white => p.bk | .black => p.wk
  m.promotion = none ∧ m.drop = none ∧ m.fromSq = own ∧ m.toSq < 64 ∧
  kingsAdjacent m.fromSq m.toSq ∧ m.toSq ≠ other ∧
  ¬ (kingsAdjacent m.toSq other = true)

/-- Applying a king move on a bare-kings board (board.push restricted to this
material). -/
def kingPush (p : KPos) (m : UciMove) : KPos :=
  match p.turn with
  | .white => ⟨m.toSq, p.bk, .black⟩
  | .black => ⟨p.wk, m.toSq, .white⟩

/-- Modelled from the spec: a concrete instance of the opaque Rules Engine,
mirroring python-chess on bare-king (king versus king) positions.  Every such
position is a draw by insufficient material, so board.is_game_over() is true
and board.result() is "1/2-1/2" on all of them, while board.legal_moves is
still non-empty: the side to move may step its king.  The initial position
places the kings on e1 (square 4) and e8 (square 60). -/
def kingEngine : RulesEngine KPos where
  init := ⟨4, 60, .white⟩
  legal := kingLegal
  push := kingPush
  isGameOver _ := true
  result _ := "1/2-1/2"
  turn := KPos.turn
  result_ok := fun _ _ => Or.inr (Or.inr rfl)

/-- Modelled from the spec: a Rules Engine instance for a position with no
legal moves at all and the game over with result "1-0", as python-chess
reports after white delivers checkmate. -/
def stuckEngine : RulesEngine Nat where
  init := 0
  legal := fun _ _ => false
  push := fun b _ => b
  isGameOver _ := true
  result _ := "1-0"
  turn _ := Side.black
  result_ok := fun _ _ => Or.inl rfl

/-! Helper lemmas shared by the claim theorems. -/

/-- The Authority dispatch has a branch only for move_proposed: any other
event leaves the board untouched and publishes nothing. -/
theorem authorityStep_not_proposed {Pos : Type} (E : RulesEngine Pos) (b : Pos)
    (msg : Msg) (h : msg.eventType ≠ "move_proposed") :
    authorityStep E b msg = .ok (b, []) := by
  simp [authorityStep, h]

/-- from_uci on a JSON list either raises ValueError (caught by the
Authority) or AttributeError (uncaught); never any other outcome. -/
theorem fromUciList_cases (a : List JValue) :
    fromUciList a = .error .valueError ∨
    fromUciList a = .error .attributeError := by
  unfold fromUciList
  split
  · split
    · exact Or.inl rfl
    · exact Or.inr rfl
  · exact Or.inl rfl

/-- Case analysis of a normally returning Authority step: either the event
was dropped (board unchanged, nothing published), or it was an accepted
string proposal, the move was pushed and move_validated was published,
followed by game_ended exactly when the new Position is terminal. -/
theorem authorityStep_cases {Pos : Type} (E : RulesEngine Pos) (b : Pos)
    (msg : Msg) (bm : Pos) (out1 : List Msg)
    (h : authorityStep E b msg = .ok (bm, out1)) :
    (bm = b ∧ out1 = [])
    ∨ ∃ s m, msg.uci = some (.jstr s) ∧ parseUci s = some m ∧
        E.legal b m = true ∧ bm = E.push b m ∧
        ((E.isGameOver (E.push b m) = false ∧
            out1 = [⟨"move_validated", some (.jstr s), none⟩])
         ∨ (E.isGameOver (E.push b m) = true ∧
            out1 = [⟨"move_validated", some (.jstr s), none⟩,
                    ⟨"game_ended", none, some (.jstr (E.result (E.push b m)))⟩])) := by
  by_cases hp : msg.eventType = "move_proposed"
  · cases hu : msg.uci with
    | none => simp [authorityStep, hp, hu, fromUciDyn] at h
    | some u =>
      cases u with
      | jnull => simp [authorityStep, hp, hu, fromUciDyn] at h
      | jbool bo => simp [authorityStep, hp, hu, fromUciDyn] at h
      | jnum n => simp [authorityStep, hp, hu, fromUciDyn] at h
      | jobj n =>
        by_cases h4 : n = 4
        · simp [authorityStep, hp, hu, fromUciDyn, h4] at h
        · by_cases h5 : n = 5
          · simp [authorityStep, hp, hu, fromUciDyn, h4, h5] at h
          · left
            simp [authorityStep, hp, hu, fromUciDyn, h4, h5] at h
            exact ⟨h.1.symm, h.2⟩
      | jarr a =>
        rcases fromUciList_cases a with hfu | hfu
        · left
          simp [authorityStep, hp, hu, fromUciDyn, hfu] at h
          exact ⟨h.1.symm, h.2⟩
        · simp [authorityStep, hp, hu, fromUciDyn, hfu] at h
      | jstr s =>
        cases hps : parseUci s with
        | none =>
          left
          simp [authorityStep, hp, hu, fromUciDyn, hps] at h
          exact ⟨h.1.symm, h.2⟩
        | some m =>
          by_cases hl : E.legal b m
          · cases hgo : E.isGameOver (E.push b m)
            · simp [authorityStep, hp, hu, fromUciDyn, hps, hl, hgo] at h
              exact Or.inr ⟨s, m, rfl, hps, hl, h.1.symm, Or.inl ⟨hgo, h.2.symm⟩⟩
            · simp [authorityStep, hp, hu, fromUciDyn, hps, hl, hgo] at h
              exact Or.inr ⟨s, m, rfl, hps, hl, h.1.symm, Or.inr ⟨hgo, h.2.symm⟩⟩
          · left
            simp [authorityStep, hp, hu, fromUciDyn, hps, hl] at h
            exact ⟨h.1.symm, h.2⟩
  · left
    rw [authorityStep_not_proposed E b msg hp] at h
    injection h with h2
    exact ⟨(congrArg Prod.fst h2).symm, (congrArg Prod.snd h2).symm⟩

/-- An Authority run that returns normally is characterised by its accepted
moves: its final board and its game_ended broadcasts are exactly those of the
replay of the move_validated events it published. -/
theorem authorityRun_characterize {Pos : Type} (E : RulesEngine Pos)
    (msgs : List Msg) : ∀ (b b2 : Pos) (out : List Msg),
    authorityRun E b msgs = .ok (b2, out) →
    b2 = (replayValidated E b
        (out.filter fun m => m.eventType == "move_validated")).1
    ∧ out.filter (fun m => m.eventType == "game_ended")
      = (replayValidated E b
          (out.filter fun m => m.eventType == "move_validated")).2 := by
  induction msgs with
  | nil =>
    intro b b2 out h
    simp only [authorityRun, Except.ok.injEq, Prod.mk.injEq] at h
    obtain ⟨hb, hout⟩ := h
    subst hb
    subst hout
    simp [replayValidated]
  | cons msg rest ih =>
    intro b b2 out h
    simp only [authorityRun] at h
    cases hs : authorityStep E b msg with
    | error e => rw [hs] at h; simp at h
    | ok r =>
      obtain ⟨bm, out1⟩ := r
      rw [hs] at h
      dsimp only at h
      cases hr : authorityRun E bm rest with
      | error e => rw [hr] at h; simp at h
      | ok r2 =>
        obtain ⟨b3, out2⟩ := r2
        rw [hr] at h
        dsimp only at h
        simp only [Except.ok.injEq, Prod.mk.injEq] at h
        obtain ⟨hb2, hout⟩ := h
        subst hb2
        subst hout
        have hih := ih bm b3 out2 hr
        rcases authorityStep_cases E b msg bm out1 hs with
          ⟨hbm, hout1⟩ | ⟨s, m, hu, hps, hl, hbm, hcase⟩
        · subst hbm; subst hout1
          simpa using hih
        · subst hbm
          rcases hcase with ⟨hgo, hout1⟩ | ⟨hgo, hout1⟩
          · subst hout1
            constructor
            · simpa [replayValidated, fromUciDyn, hps, hgo] using hih.1
            · simpa [replayValidated, fromUciDyn, hps, hgo] using hih.2
          · subst hout1
            constructor
            · simpa [replayValidated, fromUciDyn, hps, hgo] using hih.1
            · simpa [replayValidated, fromUciDyn, hps, hgo] using hih.2

/-! Claim theorems. -/

/-- C1.  Turn integrity of the Authority: for a proposal carrying the string
token s, a move_validated event is published if and only if s parses to a move
that is legal for the current side to move in the current official Position
(membership in board.legal_moves); every other proposal produces no event and
leaves the official Position unchanged.  This holds over every Rules Engine
instance and every Position, hence over every reachable state and every event
sequence. -/
theorem authority_turn_integrity {Pos : Type} (E : RulesEngine Pos) (b : Pos)
    (s : String) :
    ((∃ m, parseUci s = some m ∧ E.legal b m = true) →
      ∃ b2 out, authorityStep E b (proposeMsg s) = .ok (b2, out) ∧
        emitsValidated out = true)
    ∧ ((∀ m, parseUci s = some m → E.legal b m = false) →
      authorityStep E b (proposeMsg s) = .ok (b, [])) := by
  constructor
  · rintro ⟨m, hp, hl⟩
    cases hgo : E.isGameOver (E.push b m)
    · refine ⟨E.push b m, [⟨"move_validated", some (.jstr s), none⟩], ?_, ?_⟩
      · simp [authorityStep, proposeMsg, fromUciDyn, hp, hl, hgo]
      · simp [emitsValidated]
    · refine ⟨E.push b m,
        [⟨"move_validated", some (.jstr s), none⟩,
         ⟨"game_ended", none, some (.jstr (E.result (E.push b m)))⟩], ?_, ?_⟩
      · simp [authorityStep, proposeMsg, fromUciDyn, hp, hl, hgo]
      · simp [emitsValidated]
  · intro hno
    cases hp : parseUci s with
    | none => simp [authorityStep, proposeMsg, fromUciDyn, hp]
    | some m => simp [authorityStep, proposeMsg, fromUciDyn, hp, hno m hp]

/-- Witness for C1: from the initial bare-kings position, the legal white king
move e1e2 is validated. -/
theorem authority_turn_integrity_witness :
    ∃ b2 out, authorityStep kingEngine kingEngine.init (proposeMsg "e1e2")
        = .ok (b2, out) ∧ emitsValidated out = true :=
  (authority_turn_integrity kingEngine kingEngine.init "e1e2").1
    ⟨⟨4, 12, none, none⟩, by decide, by decide⟩

/-- C2 counterexample.  Processing a game_started event from a mid-game
official Position does not reset it to the initial configuration: the
Authority dispatch has no branch for game_started, so the board is left
exactly as it was. -/
theorem game_started_does_not_reset :
    authorityStep kingEngine ⟨12, 60, Side.black⟩ gameStartedMsg
      = .ok (⟨12, 60, Side.black⟩, [])
    ∧ (⟨12, 60, Side.black⟩ : KPos) ≠ kingEngine.init :=
  ⟨rfl, by decide⟩

/-- C2 amended.  The Authority ignores game_started (and every event type
other than move_proposed): the official Position is left unchanged and
nothing is published; the official board is at the initial configuration only
because the service process starts with a fresh chess.Board(). -/
theorem authority_ignores_game_started {Pos : Type} (E : RulesEngine Pos)
    (b : Pos) (msg : Msg) (h : msg.eventType ≠ "move_proposed") :
    authorityStep E b msg = .ok (b, []) :=
  authorityStep_not_proposed E b msg h

/-- Witness for the amended C2: a game_started event at the initial position
is ignored. -/
theorem authority_ignores_game_started_witness :
    authorityStep kingEngine kingEngine.init gameStartedMsg
      = .ok (kingEngine.init, []) :=
  authority_ignores_game_started kingEngine kingEngine.init gameStartedMsg
    (by decide)

/-- C4.  When an accepted proposal produces a Position that the Rules Engine
reports as terminal, the Authority publishes move_validated for that move
immediately followed by a game_ended event whose result is one of the three
outcome strings "1-0" (white wins), "0-1" (black wins), "1/2-1/2" (draw). -/
theorem terminal_move_emits_game_ended {Pos : Type} (E : RulesEngine Pos)
    (b : Pos) (s : String) (m : UciMove) (hp : parseUci s = some m)
    (hl : E.legal b m = true) (ht : E.isGameOver (E.push b m) = true) :
    authorityStep E b (proposeMsg s)
      = .ok (E.push b m,
          [⟨"move_validated", some (.jstr s), none⟩,
           ⟨"game_ended", none, some (.jstr (E.result (E.push b m)))⟩])
    ∧ (E.result (E.push b m) = "1-0" ∨ E.result (E.push b m) = "0-1"
        ∨ E.result (E.push b m) = "1/2-1/2") :=
  ⟨by simp [authorityStep, proposeMsg, fromUciDyn, hp, hl, ht],
   E.result_ok _ ht⟩

/-- Witness for C4: on the bare-kings engine the accepted move e1e2 yields a
terminal position, so move_validated is immediately followed by game_ended
with the draw result. -/
theorem terminal_move_emits_game_ended_witness :
    authorityStep kingEngine kingEngine.init (proposeMsg "e1e2")
      = .ok (kingEngine.push kingEngine.init ⟨4, 12, none, none⟩,
          [⟨"move_validated", some (.jstr "e1e2"), none⟩,
           ⟨"game_ended", none,
            some (.jstr (kingEngine.result
              (kingEngine.push kingEngine.init ⟨4, 12, none, none⟩)))⟩])
    ∧ (kingEngine.result (kingEngine.push kingEngine.init ⟨4, 12, none, none⟩)
          = "1-0"
        ∨ kingEngine.result (kingEngine.push kingEngine.init ⟨4, 12, none, none⟩)
          = "0-1"
        ∨ kingEngine.result (kingEngine.push kingEngine.init ⟨4, 12, none, none⟩)
          = "1/2-1/2") :=
  terminal_move_emits_game_ended kingEngine kingEngine.init "e1e2"
    ⟨4, 12, none, none⟩ (by decide) (by decide) rfl

/-- C5.  A proposal whose string token does not parse as a well-formed UCI
move is silently dropped: from_uci raises InvalidMoveError (a ValueError),
the handler catches exactly ValueError, prints and returns, so no event is
published, the official Position is unchanged and no error reaches the
proposer. -/
theorem malformed_token_silently_dropped {Pos : Type} (E : RulesEngine Pos)
    (b : Pos) (s : String) (h : parseUci s = none) :
    authorityStep E b (proposeMsg s) = .ok (b, []) := by
  simp [authorityStep, proposeMsg, fromUciDyn, h]

/-- Witness for C5: the token "zzzz" is unparseable and silently dropped. -/
theorem malformed_token_silently_dropped_witness :
    parseUci "zzzz" = none
    ∧ authorityStep kingEngine kingEngine.init (proposeMsg "zzzz")
        = .ok (kingEngine.init, []) :=
  ⟨by decide,
   malformed_token_silently_dropped kingEngine kingEngine.init "zzzz" (by decide)⟩

/-- C3 counterexample.  In a bare-kings game (a draw by insufficient material,
which python-chess reports as game over while legal king moves remain) the
Authority publishes game_ended TWICE in a single game, and a move_validated
event after the first game_ended, with no game_started in between: the code
has no game-over latch, it only relies on board.legal_moves being empty. -/
theorem authority_double_game_ended :
    (authorityRun kingEngine kingEngine.init
        [proposeMsg "e1e2", proposeMsg "e8e7"]).map
      (fun r => r.2.map Msg.eventType)
      = .ok ["move_validated", "game_ended", "move_validated", "game_ended"] :=
  rfl

/-- C3 amended.  After a game ends with no legal move left in the terminal
Position (checkmate or stalemate), every subsequent string-token proposal is
dropped: no move_validated and no further game_ended is published and the
Position never changes, until the service itself is restarted (game_started
does not reset the board).  A terminal Position that still has legal moves
(draw by insufficient material, seventy-five-move rule or fivefold
repetition) does not enjoy this: further legal proposals are validated and
publish additional game_ended events. -/
theorem authority_silent_when_no_legal_moves {Pos : Type} (E : RulesEngine Pos)
    (b : Pos) (hdead : ∀ m, E.legal b m = false) (msgs : List Msg)
    (hstr : ∀ msg ∈ msgs, msg.eventType = "move_proposed" →
        ∃ s, msg.uci = some (.jstr s)) :
    authorityRun E b msgs = .ok (b, []) := by
  revert hstr
  induction msgs with
  | nil => intro _; rfl
  | cons m rest ih =>
    intro hstr
    have hstep : authorityStep E b m = .ok (b, []) := by
      by_cases h : m.eventType = "move_proposed"
      · obtain ⟨s, hs⟩ := hstr m (by simp) h
        cases hp : parseUci s with
        | none => simp [authorityStep, h, hs, fromUciDyn, hp]
        | some mv => simp [authorityStep, h, hs, fromUciDyn, hp, hdead mv]
      · exact authorityStep_not_proposed E b m h
    have hrest := ih (fun msg hm ht => hstr msg (List.mem_cons_of_mem m hm) ht)
    simp only [authorityRun, hstep, hrest, List.nil_append]

/-- Witness for the amended C3: on an engine whose current Position admits no
legal move, a proposal produces nothing and changes nothing. -/
theorem authority_silent_when_no_legal_moves_witness :
    authorityRun stuckEngine 0 [proposeMsg "e1e2"] = .ok (0, []) :=
  authority_silent_when_no_legal_moves stuckEngine 0 (fun _ => rfl)
    [proposeMsg "e1e2"]
    (by intro msg hm _; simp at hm; subst hm; exact ⟨"e1e2", rfl⟩)

/-- C6.  Determinism over accepted proposals: two Authority runs from the
same starting Position whose published move_validated events — the accepted
proposals, each carrying its token — form the same ordered sequence reach the
same final official Position and publish exactly the same game_ended events
(so the same outcome, or the same absence of one).  The two incoming streams
may differ arbitrarily in dropped proposals (malformed, illegal, out of turn)
and in non-proposal events. -/
theorem authority_replay_deterministic {Pos : Type} (E : RulesEngine Pos)
    (b : Pos) (msgs1 msgs2 : List Msg) (b1 b2 : Pos) (out1 out2 : List Msg)
    (h1 : authorityRun E b msgs1 = .ok (b1, out1))
    (h2 : authorityRun E b msgs2 = .ok (b2, out2))
    (hacc : out1.filter (fun m => m.eventType == "move_validated")
          = out2.filter (fun m => m.eventType == "move_validated")) :
    b1 = b2
    ∧ out1.filter (fun m => m.eventType == "game_ended")
      = out2.filter (fun m => m.eventType == "game_ended") := by
  obtain ⟨hb1, he1⟩ := authorityRun_characterize E msgs1 b b1 out1 h1
  obtain ⟨hb2, he2⟩ := authorityRun_characterize E msgs2 b b2 out2 h2
  rw [hacc] at hb1 he1
  exact ⟨hb1.trans hb2.symm, he1.trans he2.symm⟩

/-- Witness for C6: a run containing a dropped malformed proposal and a run
containing an ignored game_started event accept the same single proposal and
agree on the final Position and on the game_ended broadcast. -/
theorem authority_replay_deterministic_witness :
    (⟨12, 60, Side.black⟩ : KPos) = ⟨12, 60, Side.black⟩
    ∧ ([(⟨"move_validated", some (.jstr "e1e2"), none⟩ : Msg),
        ⟨"game_ended", none, some (.jstr "1/2-1/2")⟩].filter
          (fun m => m.eventType == "game_ended"))
      = ([(⟨"move_validated", some (.jstr "e1e2"), none⟩ : Msg),
          ⟨"game_ended", none, some (.jstr "1/2-1/2")⟩].filter
            (fun m => m.eventType == "game_ended")) :=
  authority_replay_deterministic kingEngine kingEngine.init
    [proposeMsg "e1e2", proposeMsg "zzzz"]
    [gameStartedMsg, proposeMsg "e1e2"]
    ⟨12, 60, Side.black⟩ ⟨12, 60, Side.black⟩
    [⟨"move_validated", some (.jstr "e1e2"), none⟩,
     ⟨"game_ended", none, some (.jstr "1/2-1/2")⟩]
    [⟨"move_validated", some (.jstr "e1e2"), none⟩,
     ⟨"game_ended", none, some (.jstr "1/2-1/2")⟩]
    rfl rfl rfl

/-- C7.  Evaluation at the failing input: after game_started followed by the
validated first ply e1e2, the spectator and analysis observers reach the
Authority official Position, but the storage observer still holds the
initial position, because its handler advances only on "move_played" events,
an event type no service of the repository publishes. -/
theorem storage_observer_diverges :
    authorityStep kingEngine kingEngine.init (proposeMsg "e1e2")
      = .ok (⟨12, 60, Side.black⟩,
          [⟨"move_validated", some (.jstr "e1e2"), none⟩,
           ⟨"game_ended", none, some (.jstr "1/2-1/2")⟩])
    ∧ processAll (spectatorStep kingEngine) kingEngine.init
        [gameStartedMsg, ⟨"move_validated", some (.jstr "e1e2"), none⟩,
         ⟨"game_ended", none, some (.jstr "1/2-1/2")⟩]
      = .ok ⟨12, 60, Side.black⟩
    ∧ processAll (analysisStep kingEngine) kingEngine.init
        [gameStartedMsg, ⟨"move_validated", some (.jstr "e1e2"), none⟩,
         ⟨"game_ended", none, some (.jstr "1/2-1/2")⟩]
      = .ok ⟨12, 60, Side.black⟩
    ∧ processAll (storageStep kingEngine) kingEngine.init
        [gameStartedMsg, ⟨"move_validated", some (.jstr "e1e2"), none⟩,
         ⟨"game_ended", none, some (.jstr "1/2-1/2")⟩]
      = .ok kingEngine.init
    ∧ kingEngine.init ≠ (⟨12, 60, Side.black⟩ : KPos) :=
  ⟨rfl, rfl, rfl, rfl, by decide⟩

/-- C8.  Frame condition of the producers: for each of the three producer
variants, the message handler leaves the whole state unchanged on any event
type other than game_started, move_validated and game_ended, and one loop
iteration in which no bus message is processed (in particular the iteration
that publishes its own move_proposed) never changes the derived Position. -/
theorem producer_position_frame {Pos : Type} (E : RulesEngine Pos) :
    (∀ (st : EngineProdState Pos) (msg : Msg),
        msg.eventType ≠ "game_started" → msg.eventType ≠ "move_validated" →
        msg.eventType ≠ "game_ended" → producerMsg E st msg = .ok st)
    ∧ (∀ (st : AiState Pos) (msg : Msg),
        msg.eventType ≠ "game_started" → msg.eventType ≠ "move_validated" →
        msg.eventType ≠ "game_ended" → producerAiMsg E st msg = .ok st)
    ∧ (∀ (st : HumanState Pos) (msg : Msg),
        msg.eventType ≠ "game_started" → msg.eventType ≠ "move_validated" →
        msg.eventType ≠ "game_ended" → producerHumanMsg E st msg = .ok st)
    ∧ (∀ (st : EngineProdState Pos) (oracle : Option String),
        (producerLoopStep E st [] oracle).map (fun r => r.1.board)
          = .ok st.board)
    ∧ (∀ (st : AiState Pos) (oracle : String),
        (producerAiLoopStep E st [] oracle).map (fun r => r.1.board)
          = .ok st.board)
    ∧ (∀ (st : HumanState Pos) (input : String),
        (producerHumanLoopStep E st [] input).map (fun r => r.1.board)
          = .ok st.board) := by
  refine ⟨?_, ?_, ?_, ?_, ?_, ?_⟩
  · intro st msg h1 h2 h3
    simp [producerMsg, h2, h3]
  · intro st msg h1 h2 h3
    simp [producerAiMsg, h1, h2, h3]
  · intro st msg h1 h2 h3
    by_cases he : st.exited <;> simp [producerHumanMsg, he, h1, h2, h3]
  · intro st oracle
    by_cases hg : st.gameOver
    · simp [producerLoopStep, hg, Except.map]
    · by_cases hw : st.waitingValidation
      · simp [producerLoopStep, hg, hw, processAll, Except.map]
      · cases oracle <;> simp [producerLoopStep, hg, hw, Except.map]
  · intro st oracle
    by_cases hg : st.gameOver
    · simp [producerAiLoopStep, hg, Except.map]
    · by_cases hw : st.waitingValidation
      · simp [producerAiLoopStep, hg, hw, processAll, Except.map]
      · by_cases ht : E.turn st.board = Side.black <;>
          simp [producerAiLoopStep, hg, hw, ht, processAll, Except.map]
  · intro st input
    by_cases he : st.exited
    · simp [producerHumanLoopStep, he, Except.map]
    · by_cases ht : E.turn st.board = Side.white
      · cases hp : parseUci input with
        | none => simp [producerHumanLoopStep, he, ht, hp, processAll, Except.map]
        | some m =>
          by_cases hl : E.legal st.board m <;>
            simp [producerHumanLoopStep, he, ht, hp, hl, processAll, Except.map]
      · simp [producerHumanLoopStep, he, ht, processAll, Except.map]

/-- Witness for C8: an analysis event leaves the producer state untouched,
and a human-producer iteration that publishes a proposal leaves its derived
Position untouched. -/
theorem producer_position_frame_witness :
    producerMsg kingEngine ⟨kingEngine.init, false, false⟩ ⟨"analysis", none, none⟩
      = .ok ⟨kingEngine.init, false, false⟩
    ∧ (producerHumanLoopStep kingEngine ⟨kingEngine.init, false⟩ [] "e1e2").map
        (fun r => r.1.board) = .ok kingEngine.init :=
  ⟨(producer_position_frame kingEngine).1 ⟨kingEngine.init, false, false⟩
      ⟨"analysis", none, none⟩ (by decide) (by decide) (by decide),
   (producer_position_frame kingEngine).2.2.2.2.2 ⟨kingEngine.init, false⟩ "e1e2"⟩

/-- C9 counterexample.  The interactive producer has no awaiting state: two
consecutive loop iterations in which the validation echo has not yet been
delivered each publish a move_proposed for the very same turn (the derived
Position never changed and no move_validated was processed in between). -/
theorem human_producer_reproposes_same_turn :
    humanLoopRun kingEngine ⟨kingEngine.init, false⟩ [([], "e1e2"), ([], "e1e2")]
      = .ok (⟨kingEngine.init, false⟩, [proposeMsg "e1e2", proposeMsg "e1e2"]) :=
  rfl

/-- Processing a batch of messages none of which is move_validated or
game_started cannot clear the waiting_validation flag of the AI producer and
cannot raise. -/
theorem aiMsg_nonclearing_keeps_waiting {Pos : Type} (E : RulesEngine Pos)
    (d : List Msg) : ∀ st : AiState Pos, st.waitingValidation = true →
    (∀ m ∈ d, m.eventType ≠ "move_validated" ∧ m.eventType ≠ "game_started") →
    ∃ st2, processAll (producerAiMsg E) st d = .ok st2 ∧
      st2.waitingValidation = true := by
  induction d with
  | nil => intro st hw _; exact ⟨st, rfl, hw⟩
  | cons m rest ih =>
    intro st hw hcl
    obtain ⟨h1, h2⟩ := hcl m (by simp)
    have hstep : ∃ stn, producerAiMsg E st m = .ok stn ∧
        stn.waitingValidation = true := by
      by_cases hge : m.eventType = "game_ended"
      · exact ⟨⟨st.board, st.waitingValidation, true⟩,
          by simp [producerAiMsg, h1, h2, hge], by simpa using hw⟩
      · exact ⟨st, by simp [producerAiMsg, h1, h2, hge], hw⟩
    obtain ⟨stn, hs, hwn⟩ := hstep
    obtain ⟨st2, hrest, hw2⟩ := ih stn hwn
      (fun m hm => hcl m (List.mem_cons_of_mem _ hm))
    exact ⟨st2, by simp [processAll, hs, hrest], hw2⟩

/-- C9 amended.  The engine-driven producer (producer_ai.py) publishes at
most one proposal per turn: any iteration that publishes leaves
waiting_validation set, and from a state with waiting_validation set an
arbitrary run of iterations publishes nothing at all as long as no
move_validated (or game_started reset) is processed.  The interactive
producer_human.py has no such guard, see the counterexample. -/
theorem ai_producer_awaits_validation {Pos : Type} (E : RulesEngine Pos) :
    (∀ (st st2 : AiState Pos) (delivered : List Msg) (oracle : String)
        (out : List Msg),
        producerAiLoopStep E st delivered oracle = .ok (st2, out) → out ≠ [] →
        st2.waitingValidation = true)
    ∧ (∀ (st : AiState Pos) (iters : List (List Msg × String)),
        st.waitingValidation = true →
        (∀ p ∈ iters, ∀ m ∈ p.1,
            m.eventType ≠ "move_validated" ∧ m.eventType ≠ "game_started") →
        ∃ st3, aiLoopRun E st iters = .ok (st3, []) ∧
          st3.waitingValidation = true) := by
  constructor
  · intro st st2 delivered oracle out h hout
    by_cases hg : st.gameOver
    · simp [producerAiLoopStep, hg] at h
      exact absurd h.2 hout
    · cases hpa : processAll (producerAiMsg E) st delivered with
      | error e => simp [producerAiLoopStep, hg, hpa] at h
      | ok stp =>
        by_cases hw : stp.waitingValidation
        · simp [producerAiLoopStep, hg, hpa, hw] at h
          exact absurd h.2 hout
        · by_cases ht : E.turn stp.board = Side.black
          · simp [producerAiLoopStep, hg, hpa, hw, ht] at h
            rw [← h.1]
          · simp [producerAiLoopStep, hg, hpa, hw, ht] at h
            exact absurd h.2 hout
  · intro st iters
    induction iters generalizing st with
    | nil => intro hw _; exact ⟨st, rfl, hw⟩
    | cons p rest ih =>
      intro hw hcl
      obtain ⟨d, tok⟩ := p
      have hone : ∃ stn, producerAiLoopStep E st d tok = .ok (stn, []) ∧
          stn.waitingValidation = true := by
        by_cases hg : st.gameOver
        · exact ⟨st, by simp [producerAiLoopStep, hg], hw⟩
        · obtain ⟨stp, hpa, hwp⟩ := aiMsg_nonclearing_keeps_waiting E d st hw
            (fun m hm => hcl (d, tok) (by simp) m hm)
          exact ⟨stp, by simp [producerAiLoopStep, hg, hpa, hwp], hwp⟩
      obtain ⟨stn, hs, hwn⟩ := hone
      obtain ⟨st3, hrest, hw3⟩ := ih stn hwn
        (fun q hq m hm => hcl q (List.mem_cons_of_mem _ hq) m hm)
      exact ⟨st3, by simp [aiLoopRun, hs, hrest], hw3⟩

/-- Witness for the amended C9: from a waiting state, two AI-producer
iterations with nothing delivered publish nothing and remain waiting. -/
theorem ai_producer_awaits_validation_witness :
    ∃ st3, aiLoopRun kingEngine ⟨kingEngine.init, true, false⟩
        [([], "e7e5"), ([], "d7d5")] = .ok (st3, []) ∧
      st3.waitingValidation = true :=
  (ai_producer_awaits_validation kingEngine).2 ⟨kingEngine.init, true, false⟩
    [([], "e7e5"), ([], "d7d5")] rfl
    (by intro p hp m hm; simp at hp; rcases hp with h | h <;> subst h <;>
        simp at hm)

/-- C10 counterexample.  A move_proposed payload whose uci value is the JSON
array [] is NOT an uncaught exception: len([]) is neither 4 nor 5, so
from_uci raises InvalidMoveError, a subclass of ValueError, which the handler
catches; the proposal is silently dropped exactly like a malformed string. -/
theorem array_uci_silently_dropped :
    authorityStep kingEngine kingEngine.init
        ⟨"move_proposed", some (.jarr []), none⟩
      = .ok (kingEngine.init, []) :=
  rfl

/-- C10 amended.  A move_proposed payload with no "uci" key, or whose value
is null, a boolean or a number, makes from_uci raise TypeError at len(),
which the handler (catching only ValueError) does not catch; string tokens by
contrast never escape the handler.  An array value either is silently dropped
(from_uci raises InvalidMoveError, a ValueError, in its length check or
square lookup — e.g. the empty array) or raises an uncaught AttributeError
(a four element array with the string "@" second and a non-string first
element, which reaches `uci[0].lower()`); it never raises TypeError.  So the
silent-drop guarantee is not limited to string-valued tokens, and the
uncaught exception is not always a TypeError. -/
theorem missing_uci_raises_uncaught {Pos : Type} (E : RulesEngine Pos)
    (b : Pos) :
    (∀ r, authorityStep E b ⟨"move_proposed", none, r⟩ = .error .typeError)
    ∧ authorityStep E b ⟨"move_proposed", some .jnull, none⟩
        = .error .typeError
    ∧ (∀ bo : Bool, authorityStep E b ⟨"move_proposed", some (.jbool bo), none⟩
        = .error .typeError)
    ∧ (∀ n : Int, authorityStep E b ⟨"move_proposed", some (.jnum n), none⟩
        = .error .typeError)
    ∧ (∀ a : List JValue,
        authorityStep E b ⟨"move_proposed", some (.jarr a), none⟩ = .ok (b, [])
        ∨ authorityStep E b ⟨"move_proposed", some (.jarr a), none⟩
            = .error .attributeError)
    ∧ (∀ y z : JValue,
        authorityStep E b
            ⟨"move_proposed", some (.jarr [.jnum 1, .jstr "@", y, z]), none⟩
          = .error .attributeError)
    ∧ (∀ s : String, ∃ res, authorityStep E b (proposeMsg s) = .ok res) := by
  refine ⟨fun r => rfl, rfl, fun bo => rfl, fun n => rfl, fun a => ?_,
    fun y z => rfl, fun s => ?_⟩
  · rcases fromUciList_cases a with hfu | hfu
    · exact Or.inl (by simp [authorityStep, fromUciDyn, hfu])
    · exact Or.inr (by simp [authorityStep, fromUciDyn, hfu])
  cases hp : parseUci s with
  | none => exact ⟨(b, []), by simp [authorityStep, proposeMsg, fromUciDyn, hp]⟩
  | some m =>
    by_cases hl : E.legal b m
    · cases hgo : E.isGameOver (E.push b m)
      · exact ⟨(E.push b m, [⟨"move_validated", some (.jstr s), none⟩]),
          by simp [authorityStep, proposeMsg, fromUciDyn, hp, hl, hgo]⟩
      · exact ⟨(E.push b m,
          [⟨"move_validated", some (.jstr s), none⟩,
           ⟨"game_ended", none, some (.jstr (E.result (E.push b m)))⟩]),
          by simp [authorityStep, proposeMsg, fromUciDyn, hp, hl, hgo]⟩
    · exact ⟨(b, []),
        by simp [authorityStep, proposeMsg, fromUciDyn, hp, hl]⟩

end ChessRMQ
